import Mathlib

/-!
Verification development for the fullscreen terminal writer and the buffered
event stream of the garden CLI logging subsystem
(src/garden-service/src/logger/writers/fullscreen-terminal-writer.ts).

The source is embedded shallowly: the mutable writer object becomes an
explicit `WriterState`, canvas operations become emitted effect lists
(setLine calls and a repaint flag), and external collaborators (the log
graph traversal, the text renderers, wrap-ansi, the spinner glyph library)
become parameters gathered in `Renderers`, exactly as the specification
declares them out of scope.  String operations are modelled on the
character list of a string so that everything evaluates inside the kernel.
-/

namespace Garden

/-- Status of a log entry, as read from the external log graph. -/
inductive Status
  | active
  | done
  | error
  | unknown
deriving DecidableEq

/-- View of one log entry as consumed by the writer.  The numeric `level`
follows the source LogLevel enum: error = 0, warn = 1, info = 2,
verbose = 3, debug = 4; an entry is visible when its level is at most the
writer level. -/
structure LogEntryView where
  key : String
  level : Nat
  status : Status
  fromStdStream : Bool
deriving DecidableEq

/-- TerminalEntry record produced by fullRender: wrapped text, the first
line row index, and optional spinner coordinates. -/
structure TerminalEntry where
  key : String
  text : String
  lineNumber : Nat
  spinnerCoords : Option (Nat × Nat)
deriving DecidableEq

/-- Bundle of the external pure rendering collaborators: renderMsg and
formatForTerminal from the renderers module, basicRender, leftPad, the
wrap-ansi library, and the spinner glyph machinery (glyph per phase and
the chalk style wrapper). -/
structure Renderers where
  renderMsg : LogEntryView → String
  formatForTerminal : LogEntryView → String
  basicRender : LogEntryView → String
  leftPad : LogEntryView → String
  wrapAnsi : String → Nat → String
  spinnerFrame : Nat → String
  spinnerStyle : String → String

/-- The throttle interval of the writer (THROTTLE_MS). -/
def THROTTLE_MS : Nat := 600

/-- Newline character used by the split in render and fullRender. -/
def newlineChar : Char := Char.ofNat 10

/-- Splits a character list at newline characters, JavaScript
split semantics: the empty list yields one empty segment, a trailing
newline yields a trailing empty segment. -/
def splitNlChars : List Char → List (List Char)
  | [] => [[]]
  | c :: rest =>
    let r := splitNlChars rest
    if c = newlineChar then [] :: r
    else
      match r with
      | [] => [[c]]
      | h :: t => (c :: h) :: t

/-- String version of the newline split, the embedding of
text.split over the newline separator. -/
def splitLines (s : String) : List String :=
  (splitNlChars s.data).map (fun cs => String.mk cs)

/-- Number of newline-separated segments of a string. -/
def segCount (s : String) : Nat := (splitLines s).length

/-- Character-count length of a string, the embedding of the
JavaScript length property. -/
def strLen (s : String) : Nat := s.data.length

/-- Prefix of the first n characters, the embedding of slice from 0 to n. -/
def strTake (s : String) (n : Nat) : String := String.mk (s.data.take n)

/-- Remainder after the first n characters, the embedding of slice from n. -/
def strDrop (s : String) (n : Nat) : String := String.mk (s.data.drop n)

/-- Concatenation of a list of strings, the embedding of join with the
empty separator. -/
def joinAll : List String → String
  | [] => ""
  | s :: rest => s ++ joinAll rest

/-- Association list lookup for the spinners map. -/
def lookupKey : List (String × Nat) → String → Option Nat
  | [], _ => none
  | (k, v) :: rest, key => if k = key then some v else lookupKey rest key

/-- Association list update or insert for the spinners map. -/
def setKey : List (String × Nat) → String → Nat → List (String × Nat)
  | [], key, v => [(key, v)]
  | (k, w) :: rest, key, v =>
    if k = key then (k, v) :: rest else (k, w) :: setKey rest key v

/-- Association list removal for the spinners map, the embedding of the
delete statement in fullRender. -/
def eraseKey : List (String × Nat) → String → List (String × Nat)
  | [], _ => []
  | (k, v) :: rest, key =>
    if k = key then eraseKey rest key else (k, v) :: eraseKey rest key

/-- Modelled from the spec: the cyclic glyph sequence of the external
elegant-spinner library, which is not part of this repository.  The spec
describes it as a cyclic sequence of glyphs advanced by a per-key frame
counter; these are the braille spinner glyphs the library cycles through. -/
def elegantFrames : List String :=
  ["⠋", "⠙", "⠹", "⠸", "⠼", "⠴", "⠦", "⠧", "⠇", "⠏"]

/-- Modelled from the spec: glyph for a given phase of the cyclic
elegant-spinner sequence. -/
def elegantFrame (n : Nat) : String :=
  elegantFrames.getD (n % elegantFrames.length) "⠋"

/-- tickSpinner: lazily allocates a per-key frame counter and advances it,
returning the current glyph.  The closure state of the external
elegant-spinner generator is modelled as the stored phase counter. -/
def tickSpinner (R : Renderers) (spinners : List (String × Nat)) (key : String) :
    String × List (String × Nat) :=
  match lookupKey spinners key with
  | some phase => (R.spinnerFrame phase, setKey spinners key (phase + 1))
  | none => (R.spinnerFrame 0, setKey spinners key 1)

/-- Wrapped text of one entry inside the fullRender reduce body: raw
renderMsg for stream entries, formatForTerminal otherwise, with the
spinner glyph and a space spliced in at the leftPad column for active
entries, then wrap-ansi at width minus two. -/
def entryText (R : Renderers) (width : Nat) (spinners : List (String × Nat))
    (entry : LogEntryView) : String :=
  let frame := if entry.status = Status.active then (tickSpinner R spinners entry.key).1 else ""
  let spinnerX := strLen (R.leftPad entry)
  let base := if entry.fromStdStream then R.renderMsg entry else R.formatForTerminal entry
  let spliced :=
    if frame = "" then base
    else strTake base spinnerX ++ R.spinnerStyle frame ++ " " ++ strDrop base spinnerX
  R.wrapAnsi spliced (width - 2)

/-- Spinners map after processing one entry in fullRender: active entries
tick (allocating on first observation), other entries have their key
deleted. -/
def entrySpinners (R : Renderers) (spinners : List (String × Nat))
    (entry : LogEntryView) : List (String × Nat) :=
  if entry.status = Status.active then (tickSpinner R spinners entry.key).2
  else eraseKey spinners entry.key

/-- TerminalEntry produced for one entry in fullRender, or none when the
wrapped text is empty (the falsy check in the source). -/
def entryRecord (R : Renderers) (width : Nat) (spinners : List (String × Nat))
    (curLine : Nat) (entry : LogEntryView) : Option TerminalEntry :=
  let text := entryText R width spinners entry
  if text = "" then none
  else
    some
      { key := entry.key
        text := text
        lineNumber := curLine
        spinnerCoords :=
          if entry.status = Status.active then some (strLen (R.leftPad entry), curLine)
          else none }

/-- The reduce of fullRender: walks the filtered entries accumulating
records, threading the spinners map and the current line number, which
advances by the newline-segment count of the wrapped text minus one. -/
def fullRenderAux (R : Renderers) (width : Nat) :
    List LogEntryView → List (String × Nat) → Nat → List TerminalEntry × List (String × Nat)
  | [], spinners, _ => ([], spinners)
  | entry :: rest, spinners, curLine =>
    let text := entryText R width spinners entry
    let tail :=
      fullRenderAux R width rest (entrySpinners R spinners entry)
        (curLine + (segCount text - 1))
    ((entryRecord R width spinners curLine entry).toList ++ tail.1, tail.2)

/-- fullRender: filters the graph traversal by the writer level and runs
the reduce from line zero.  The external getChildEntries traversal is the
logger list parameter. -/
def fullRender (R : Renderers) (width level : Nat) (spinners : List (String × Nat))
    (logger : List LogEntryView) : List TerminalEntry × List (String × Nat) :=
  fullRenderAux R width (logger.filter (fun e => decide (e.level ≤ level))) spinners 0

/-- Row condition of the write loop as the source states it: the previous
output is shorter than the index, or the cell at the index differs (an
out-of-range read is undefined and thus differs from any line). -/
def codeRowWritten (prevOutput : List String) (y : Nat) (line : String) : Bool :=
  decide (prevOutput.length < y) || decide (prevOutput.get? y ≠ some line)

/-- The write loop: walks the new output with a row counter, emitting one
setLine call for every row satisfying the row condition. -/
def writeCallsFrom (prevOutput : List String) : Nat → List String → List (Nat × String)
  | _, [] => []
  | y, line :: rest =>
    if codeRowWritten prevOutput y line then
      (y, line) :: writeCallsFrom prevOutput (y + 1) rest
    else writeCallsFrom prevOutput (y + 1) rest

/-- setLine calls issued by write for a new output against the cached
previous output. -/
def writeCalls (prevOutput output : List String) : List (Nat × String) :=
  writeCallsFrom prevOutput 0 output

/-- State of the writer object: writer level, spinners map, the running
spinner loop (the interval handle together with its captured entries),
throttling bookkeeping, buffered error messages, the cached previous
output, the scrolling flag, and whether the screen has been destroyed. -/
structure WriterState where
  level : Nat
  spinners : List (String × Nat)
  loopEntries : Option (List TerminalEntry)
  lastInterceptAt : Option Nat
  updatePending : Bool
  errorMessages : List String
  prevOutput : List String
  scrolling : Bool
  screenDestroyed : Bool
deriving DecidableEq

/-- stopLoop: clears the spinner interval. -/
def stopLoop (s : WriterState) : WriterState := { s with loopEntries := none }

/-- startLoop: stops any running loop and starts one over the given
entries. -/
def startLoop (s : WriterState) (entries : List TerminalEntry) : WriterState :=
  { stopLoop s with loopEntries := some entries }

/-- Result of the render step: the new state, the setLine calls issued to
the canvas, and whether a repaint was triggered. -/
structure RenderResult where
  state : WriterState
  calls : List (Nat × String)
  repaint : Bool

/-- render: flattens the entry texts into physical lines, diff-writes them
unless didWrite is set, replaces the cached previous output, and starts or
stops the spinner loop according to the records carrying spinner
coordinates. -/
def render (s : WriterState) (terminalEntries : List TerminalEntry) (didWrite : Bool) :
    RenderResult :=
  let output := splitLines (joinAll (terminalEntries.map (fun e => e.text)))
  let calls := if didWrite then [] else writeCalls s.prevOutput output
  let repaint := if didWrite then false else !calls.isEmpty
  let s1 := { s with prevOutput := output }
  let withSpinner := terminalEntries.filter (fun e => e.spinnerCoords.isSome)
  let s2 := if withSpinner.isEmpty then stopLoop s1 else startLoop s1 withSpinner
  { state := s2, calls := calls, repaint := repaint }

/-- Decision taken for one graph-change notification. -/
inductive Decision
  | renderedNow
  | deferredCatchUp
  | filteredOut
deriving DecidableEq

/-- Result of processing one notification. -/
structure NotifyResult where
  state : WriterState
  calls : List (Nat × String)
  repaint : Bool
  decision : Decision

/-- Truthiness test of the throttle condition: lastInterceptAt is set and
truthy (nonzero), and less than THROTTLE_MS ago. -/
def throttleCheck (lastInterceptAt : Option Nat) (now : Nat) : Bool :=
  match lastInterceptAt with
  | none => false
  | some t => decide (t ≠ 0) && decide (now - t < THROTTLE_MS)

/-- Tail of handleGraphChange after the throttle gate: build the snapshot,
persist the spinner bookkeeping, skip when the triggering key produced no
record, otherwise render. -/
def handleRender (R : Renderers) (width : Nat) (log : LogEntryView)
    (logger : List LogEntryView) (didWrite : Bool) (s : WriterState) : NotifyResult :=
  let fr := fullRender R width s.level s.spinners logger
  let s1 := { s with spinners := fr.2 }
  if fr.1.any (fun e => e.key == log.key) then
    let r := render s1 fr.1 didWrite
    { state := r.state, calls := r.calls, repaint := r.repaint
      decision := Decision.renderedNow }
  else
    { state := s1, calls := [], repaint := false, decision := Decision.filteredOut }

/-- handleGraphChange: clears updatePending, and for live-stream
notifications that are not deferred catch-up calls records the intercept
time and, when a burst is in progress, stops the spinner loop, marks the
update pending and defers; otherwise proceeds to the render path. -/
def handleGraphChange (R : Renderers) (width now : Nat) (log : LogEntryView)
    (logger : List LogEntryView) (didWrite : Bool) (s : WriterState) : NotifyResult :=
  let s0 := { s with updatePending := false }
  if log.fromStdStream && !didWrite then
    let throttle := throttleCheck s0.lastInterceptAt now
    let s1 := { s0 with lastInterceptAt := some now }
    if throttle then
      let s2 := { stopLoop s1 with updatePending := true }
      { state := s2, calls := [], repaint := false, decision := Decision.deferredCatchUp }
    else handleRender R width log logger didWrite s1
  else handleRender R width log logger didWrite s0

/-- onGraphChange: error-level entries are appended to the error-message
buffer (when basicRender yields output) before the notification is
handled.  The blessed screen construction in init is out of scope. -/
def onGraphChange (R : Renderers) (width now : Nat) (entry : LogEntryView)
    (logger : List LogEntryView) (s : WriterState) : NotifyResult :=
  let s0 :=
    if entry.level == 0 && !(R.basicRender entry == "") then
      { s with errorMessages := s.errorMessages ++ [R.basicRender entry] }
    else s
  handleGraphChange R width now entry logger false s0

/-- stop: the public stop method, which only stops the spinner loop. -/
def stop (s : WriterState) : WriterState := stopLoop s

/-- cleanup: destroys the screen and writes the buffered error messages to
stdout, returning them as the flushed lines, then clears the buffer. -/
def cleanup (s : WriterState) : WriterState × List String :=
  ({ s with screenDestroyed := true, errorMessages := [] }, s.errorMessages)

/-- The batch cap of the buffered event stream (MAX_BATCH_SIZE). -/
def MAX_BATCH_SIZE : Nat := 200

/-- The flush timer interval of the buffered event stream. -/
def FLUSH_INTERVAL_MSEC : Nat := 3000

/-- State of the buffered event stream: the session id and the two FIFO
queues, one per record kind. -/
structure BufferState (α β : Type) where
  sessionId : String
  bufferedEvents : List α
  bufferedLogEntries : List β
deriving DecidableEq

/-- One call to the outbound sink: the session id together with the
events or log entries carried, the kind not being flushed left empty. -/
structure SinkCall (α β : Type) where
  sessionId : String
  events : List α
  logEntries : List β
deriving DecidableEq

/-- streamEvent: appends a structured event to its queue. -/
def streamEvent (e : α) (s : BufferState α β) : BufferState α β :=
  { s with bufferedEvents := s.bufferedEvents ++ [e] }

/-- streamLogEntry: appends a log record to its queue. -/
def streamLogEntry (e : β) (s : BufferState α β) : BufferState α β :=
  { s with bufferedLogEntries := s.bufferedLogEntries ++ [e] }

/-- Result of one flush: the new buffer state, the removed batches of each
kind, and the sink calls issued. -/
structure FlushResult (α β : Type) where
  state : BufferState α β
  events : List α
  logEntries : List β
  calls : List (SinkCall α β)

/-- flushBuffered: splices up to the batch cap from the events queue, then
fills the remainder of the cap from the log-records queue, both drained
completely when flushAll is set; each non-empty removed batch becomes one
sink call carrying the session id and only its own kind. -/
def flushBuffered (flushAll : Bool) (s : BufferState α β) : FlushResult α β :=
  let ecap := if flushAll then s.bufferedEvents.length else MAX_BATCH_SIZE
  let eventsToFlush := s.bufferedEvents.take ecap
  let restEvents := s.bufferedEvents.drop ecap
  let lcap :=
    if flushAll then s.bufferedLogEntries.length else MAX_BATCH_SIZE - eventsToFlush.length
  let logEntriesToFlush := s.bufferedLogEntries.take lcap
  let restLogs := s.bufferedLogEntries.drop lcap
  let eventCalls : List (SinkCall α β) :=
    if eventsToFlush.isEmpty then []
    else [{ sessionId := s.sessionId, events := eventsToFlush, logEntries := [] }]
  let logCalls : List (SinkCall α β) :=
    if logEntriesToFlush.isEmpty then []
    else [{ sessionId := s.sessionId, events := [], logEntries := logEntriesToFlush }]
  { state := { s with bufferedEvents := restEvents, bufferedLogEntries := restLogs }
    events := eventsToFlush
    logEntries := logEntriesToFlush
    calls := eventCalls ++ logCalls }

end Garden

namespace Garden

/-- Specification-side row condition, written after the words of the spec:
a row is rewritten only if it is new (index at or beyond the length of the
previous output) or its content differs from the previous row at that
index. -/
def specRowWritten (prevOutput : List String) (y : Nat) (line : String) : Bool :=
  decide (prevOutput.length ≤ y) ||
    (match prevOutput.get? y with
     | some old => decide (old ≠ line)
     | none => false)

/-- Specification-side list of line writes: one write per row of the new
output satisfying the spec row condition, in row order. -/
def specWrittenFrom (prevOutput : List String) : Nat → List String → List (Nat × String)
  | _, [] => []
  | y, line :: rest =>
    if specRowWritten prevOutput y line then
      (y, line) :: specWrittenFrom prevOutput (y + 1) rest
    else specWrittenFrom prevOutput (y + 1) rest

theorem rowWritten_eq (prev : List String) (y : Nat) (line : String) :
    codeRowWritten prev y line = specRowWritten prev y line := by
  unfold codeRowWritten specRowWritten
  rcases h : prev.get? y with _ | old
  · have hy : prev.length ≤ y := List.get?_eq_none.mp h
    simp [h, hy]
  · have hy : y < prev.length := by
      by_contra hc
      rw [List.get?_eq_none.mpr (Nat.le_of_not_lt hc)] at h
      exact Option.noConfusion h
    simp [h, Nat.not_le.mpr hy, Nat.lt_asymm hy]

theorem writeCallsFrom_eq_specFrom (prev : List String) :
    ∀ (out : List String) (y : Nat),
      writeCallsFrom prev y out = specWrittenFrom prev y out := by
  intro out
  induction out with
  | nil => intro y; rfl
  | cons line rest ih =>
    intro y
    simp only [writeCallsFrom, specWrittenFrom, rowWritten_eq, ih]

/-- C4: the setLine calls issued by the diff writer are exactly one write
per row of the new output that is new (index at or beyond the length of
the previous output) or whose content differs from the previous row at
that index, in row order; in particular the number of setLine calls equals
the number of such rows. -/
theorem C4_diff_minimality (prevOutput output : List String) :
    writeCalls prevOutput output = specWrittenFrom prevOutput 0 output
    ∧ (writeCalls prevOutput output).length
        = (specWrittenFrom prevOutput 0 output).length := by
  refine ⟨writeCallsFrom_eq_specFrom prevOutput output 0, ?_⟩
  rw [writeCalls, writeCallsFrom_eq_specFrom prevOutput output 0]

theorem writeCallsFrom_lt (prev : List String) :
    ∀ (out : List String) (y : Nat) (c : Nat × String),
      c ∈ writeCallsFrom prev y out → c.1 < y + out.length := by
  intro out
  induction out with
  | nil => intro y c hc; simp [writeCallsFrom] at hc
  | cons line rest ih =>
    intro y c hc
    by_cases h : codeRowWritten prev y line
    · rw [writeCallsFrom, if_pos h] at hc
      rcases List.mem_cons.mp hc with h1 | h1
      · subst h1; simp
      · have := ih (y + 1) c h1
        simp only [List.length_cons]
        omega
    · rw [writeCallsFrom, if_neg h] at hc
      have := ih (y + 1) c hc
      simp only [List.length_cons]
      omega

/-- Canvas contents after applying a list of setLine calls, each setting
one row. -/
def applyCalls (canvas : List String) (calls : List (Nat × String)) : List String :=
  calls.foldl (fun cv c => cv.set c.1 c.2) canvas

theorem applyCalls_get?_of_ge (N : Nat) :
    ∀ (calls : List (Nat × String)) (canvas : List String) (j : Nat),
      (∀ c ∈ calls, c.1 < N) → N ≤ j →
      (applyCalls canvas calls).get? j = canvas.get? j := by
  intro calls
  induction calls with
  | nil => intro canvas j _ _; rfl
  | cons c rest ih =>
    intro canvas j hc hj
    have h1 : c.1 < N := hc c (List.mem_cons_self c rest)
    have hne : (canvas.set c.1 c.2).get? j = canvas.get? j :=
      List.get?_set_ne c.2 canvas (by omega)
    simp only [applyCalls, List.foldl_cons]
    have := ih (canvas.set c.1 c.2) j (fun d hd => hc d (List.mem_cons_of_mem c hd)) hj
    simp only [applyCalls] at this
    rw [this, hne]

/-- C10: the diff writer only issues setLine calls at row indices strictly
below the number of lines of the new output, hence applying the calls to
any canvas leaves every row at or beyond that count unchanged: extra
trailing lines of a previously longer output remain on the canvas. -/
theorem C10_no_trailing_writes (prevOutput output : List String) :
    ((writeCalls prevOutput output).all (fun c => decide (c.1 < output.length)) = true)
    ∧ ∀ (canvas : List String) (k : Nat),
        (applyCalls canvas (writeCalls prevOutput output)).get? (output.length + k)
          = canvas.get? (output.length + k) := by
  constructor
  · rw [List.all_eq_true]
    intro c hc
    have := writeCallsFrom_lt prevOutput output 0 c hc
    simp only [decide_eq_true_eq]
    omega
  · intro canvas k
    apply applyCalls_get?_of_ge output.length
    · intro c hc
      have := writeCallsFrom_lt prevOutput output 0 c hc
      omega
    · omega

end Garden

namespace Garden

/-- Concrete instantiation of the external renderers used to evaluate the
embedding at specific inputs: text rendering returns the entry key (with a
bang for stream entries), wrapping is the identity, padding is empty, and
the spinner uses the modelled elegant-spinner glyphs. -/
def cexRenderers : Renderers :=
  { renderMsg := fun e => e.key ++ "!"
  , formatForTerminal := fun e => e.key
  , basicRender := fun e => e.key
  , leftPad := fun _ => ""
  , wrapAnsi := fun s _ => s
  , spinnerFrame := elegantFrame
  , spinnerStyle := fun s => s }

/-- Writer state as built by the constructor, at the default info level. -/
def initWriterState : WriterState :=
  { level := 2, spinners := [], loopEntries := none, lastInterceptAt := none
  , updatePending := false, errorMessages := [], prevOutput := [], scrolling := false
  , screenDestroyed := false }

/-- Concrete done entry with key a at info level. -/
def doneEntryA : LogEntryView :=
  { key := "a", level := 2, status := Status.done, fromStdStream := false }

/-- Concrete done entry with key b at info level. -/
def doneEntryB : LogEntryView :=
  { key := "b", level := 2, status := Status.done, fromStdStream := false }

/-- Concrete active entry with key a at info level. -/
def activeEntryA : LogEntryView :=
  { key := "a", level := 2, status := Status.active, fromStdStream := false }

/-- Concrete live-stream entry with key s at info level. -/
def streamEntryS : LogEntryView :=
  { key := "s", level := 2, status := Status.done, fromStdStream := true }

/-- Concrete done entry with key a at debug level, invisible to a writer
at info level. -/
def hiddenDoneEntryA : LogEntryView :=
  { key := "a", level := 4, status := Status.done, fromStdStream := false }

/-- Chained line-number property: the first record sits at the given line,
and each following record sits at the previous line advanced by the
newline-segment count of the previous text minus one. -/
def chainFrom (n : Nat) : List TerminalEntry → Prop
  | [] => True
  | r :: rs => r.lineNumber = n ∧ chainFrom (n + (segCount r.text - 1)) rs

/-- Specification-side reading of the cumulative line-number claim: each
record sits at the sum of the line counts (newline-segment counts) of the
records before it. -/
def specCumulativeLineNumbers (rs : List TerminalEntry) : Prop :=
  ∀ i (h : i < rs.length),
    (rs.get ⟨i, h⟩).lineNumber = ((rs.take i).map (fun r => segCount r.text)).sum

instance (rs : List TerminalEntry) : Decidable (specCumulativeLineNumbers rs) := by
  unfold specCumulativeLineNumbers
  infer_instance

theorem splitNlChars_length_pos (cs : List Char) : 1 ≤ (splitNlChars cs).length := by
  induction cs with
  | nil => simp [splitNlChars]
  | cons c rest _ =>
    simp only [splitNlChars]
    by_cases hc : c = newlineChar
    · simp [hc]
    · cases hr : splitNlChars rest <;> simp [hc, hr]

theorem segCount_pos (s : String) : 1 ≤ segCount s := by
  unfold segCount splitLines
  simpa using splitNlChars_length_pos s.data

theorem chainFrom_fullRenderAux (R : Renderers) (width : Nat) :
    ∀ (entries : List LogEntryView) (spinners : List (String × Nat)) (curLine : Nat),
      chainFrom curLine (fullRenderAux R width entries spinners curLine).1 := by
  intro entries
  induction entries with
  | nil => intro sp n; simp [fullRenderAux, chainFrom]
  | cons e rest ih =>
    intro sp n
    simp only [fullRenderAux]
    by_cases ht : entryText R width sp e = ""
    · have hrec : entryRecord R width sp n e = none := by simp [entryRecord, ht]
      have hseg : segCount (entryText R width sp e) - 1 = 0 := by
        rw [ht]; rfl
      simp only [hrec, Option.toList_none, List.nil_append, hseg, Nat.add_zero]
      exact ih (entrySpinners R sp e) n
    · have hrec :
          entryRecord R width sp n e =
            some
              { key := e.key, text := entryText R width sp e, lineNumber := n
                spinnerCoords :=
                  if e.status = Status.active then some (strLen (R.leftPad e), n)
                  else none } := by
        simp [entryRecord, ht]
      simp only [hrec, Option.toList_some, List.cons_append, chainFrom]
      exact ⟨trivial, ih (entrySpinners R sp e) (n + (segCount (entryText R width sp e) - 1))⟩

theorem chainFrom_head_le (n : Nat) :
    ∀ (rs : List TerminalEntry), chainFrom n rs → ∀ r ∈ rs, n ≤ r.lineNumber := by
  intro rs
  induction rs generalizing n with
  | nil => intro _ r hr; exact absurd hr (List.not_mem_nil r)
  | cons r0 rest ih =>
    intro hc r hr
    rcases hc with ⟨h0, hrest⟩
    rcases List.mem_cons.mp hr with h1 | h1
    · subst h1; omega
    · have := ih (n + (segCount r0.text - 1)) hrest r h1
      omega

theorem chainFrom_chain' (n : Nat) :
    ∀ (rs : List TerminalEntry), chainFrom n rs →
      List.Chain' (fun a b => a.lineNumber ≤ b.lineNumber) rs := by
  intro rs
  induction rs generalizing n with
  | nil => intro _; exact List.chain'_nil
  | cons r0 rest ih =>
    intro hc
    rcases hc with ⟨h0, hrest⟩
    cases rest with
    | nil => simp
    | cons r1 rest2 =>
      refine List.Chain'.cons ?_ (ih (n + (segCount r0.text - 1)) hrest)
      have := chainFrom_head_le _ _ hrest r1 (List.mem_cons_self r1 rest2)
      omega

/-- C2 (amended): in every snapshot produced by fullRender, the first
record sits at line zero and each following record sits at the previous
line advanced by the newline-segment count of the previous text minus one
(the number of newlines in it); consequently lineNumber values are
monotonically non-decreasing.  They equal cumulative line counts only when
every rendered text ends with a newline. -/
theorem C2_lineNumbers (R : Renderers) (width level : Nat)
    (spinners : List (String × Nat)) (logger : List LogEntryView) :
    chainFrom 0 (fullRender R width level spinners logger).1
    ∧ List.Chain' (fun a b => a.lineNumber ≤ b.lineNumber)
        (fullRender R width level spinners logger).1 := by
  refine ⟨chainFrom_fullRenderAux R width _ spinners 0, ?_⟩
  exact chainFrom_chain' 0 _ (chainFrom_fullRenderAux R width _ spinners 0)

/-- C2 counterexample: two visible entries whose rendered texts are single
segments without a trailing newline both receive lineNumber zero, so the
second lineNumber is not the sum of the line counts of the records before
it (which is one). -/
theorem C2_counterexample :
    ¬ specCumulativeLineNumbers (fullRender cexRenderers 80 2 [] [doneEntryA, doneEntryB]).1 := by
  decide

end Garden

namespace Garden

theorem foldl_streamEvent (l : List α) :
    ∀ (s : BufferState α β),
      ((l.foldl (fun acc e => streamEvent e acc) s).sessionId = s.sessionId)
      ∧ ((l.foldl (fun acc e => streamEvent e acc) s).bufferedEvents = s.bufferedEvents ++ l)
      ∧ ((l.foldl (fun acc e => streamEvent e acc) s).bufferedLogEntries
          = s.bufferedLogEntries) := by
  induction l with
  | nil => intro s; simp
  | cons e rest ih =>
    intro s
    simp only [List.foldl_cons]
    rcases ih (streamEvent e s) with ⟨h0, h1, h2⟩
    refine ⟨h0, ?_, h2⟩
    rw [h1]
    simp [streamEvent]

/-- Buffer obtained by enqueuing 250 structured events through streamEvent
into a fresh stream, with no log records. -/
def scenario250 : BufferState Nat Nat :=
  (List.replicate 250 0).foldl (fun acc e => streamEvent e acc)
    { sessionId := "s", bufferedEvents := [], bufferedLogEntries := [] }

theorem scenario250_events : scenario250.bufferedEvents = List.replicate 250 0 := by
  have h1 : scenario250.bufferedEvents = [] ++ List.replicate 250 0 :=
    (foldl_streamEvent (β := Nat) (List.replicate 250 0)
      { sessionId := "s", bufferedEvents := [], bufferedLogEntries := [] }).2.1
  rw [h1, List.nil_append]

theorem scenario250_logEntries : scenario250.bufferedLogEntries = [] :=
  (foldl_streamEvent (β := Nat) (List.replicate 250 0)
    { sessionId := "s", bufferedEvents := [], bufferedLogEntries := [] }).2.2

/-- Buffer holding 50 structured events and 300 log records, used to
exercise the log-records queue filling the remainder of the cap. -/
def scenarioMixed : BufferState Nat Nat :=
  { sessionId := "s", bufferedEvents := List.replicate 50 0
    bufferedLogEntries := List.replicate 300 1 }

/-- C3: a flush with flushAll false removes at most the batch cap of 200
records in total, allocated by the source policy: the removed events batch
is the events queue taken up to the cap, and the removed log-records batch
is the log-records queue taken up to the cap minus the number of events
removed, each queue keeping arrival order (the removed batch is the oldest
prefix, the remainder stays queued in order).  On the concrete buffer of
250 enqueued structured events one flush removes exactly 200, a second
flush removes the remaining 50 and empties the queue; on a buffer of 50
events and 300 log records one flush removes the 50 events and 150 log
records, leaving 150 log records queued; and a flush with flushAll true
removes both queues completely regardless of the cap. -/
theorem C3_flush_cap :
    (∀ (α β : Type) (s : BufferState α β),
        (flushBuffered false s).events = s.bufferedEvents.take MAX_BATCH_SIZE
        ∧ (flushBuffered false s).logEntries
            = s.bufferedLogEntries.take
                (MAX_BATCH_SIZE - (flushBuffered false s).events.length)
        ∧ (flushBuffered false s).state.bufferedEvents
            = s.bufferedEvents.drop MAX_BATCH_SIZE
        ∧ (flushBuffered false s).state.bufferedLogEntries
            = s.bufferedLogEntries.drop
                (MAX_BATCH_SIZE - (flushBuffered false s).events.length)
        ∧ (flushBuffered false s).events.length + (flushBuffered false s).logEntries.length
            ≤ MAX_BATCH_SIZE
        ∧ s.bufferedEvents
            = (flushBuffered false s).events ++ (flushBuffered false s).state.bufferedEvents
        ∧ s.bufferedLogEntries
            = (flushBuffered false s).logEntries
                ++ (flushBuffered false s).state.bufferedLogEntries
        ∧ (flushBuffered true s).events = s.bufferedEvents
        ∧ (flushBuffered true s).logEntries = s.bufferedLogEntries
        ∧ (flushBuffered true s).state.bufferedEvents = []
        ∧ (flushBuffered true s).state.bufferedLogEntries = [])
    ∧ (flushBuffered false scenario250).events.length = 200
    ∧ (flushBuffered false (flushBuffered false scenario250).state).events.length = 50
    ∧ (flushBuffered false (flushBuffered false scenario250).state).state.bufferedEvents = []
    ∧ (flushBuffered false scenarioMixed).events.length = 50
    ∧ (flushBuffered false scenarioMixed).logEntries.length = 150
    ∧ (flushBuffered false scenarioMixed).state.bufferedLogEntries.length = 150 := by
  have hmain :
      ∀ (α β : Type) (s : BufferState α β),
        (flushBuffered false s).events = s.bufferedEvents.take MAX_BATCH_SIZE
        ∧ (flushBuffered false s).logEntries
            = s.bufferedLogEntries.take
                (MAX_BATCH_SIZE - (flushBuffered false s).events.length)
        ∧ (flushBuffered false s).state.bufferedEvents
            = s.bufferedEvents.drop MAX_BATCH_SIZE
        ∧ (flushBuffered false s).state.bufferedLogEntries
            = s.bufferedLogEntries.drop
                (MAX_BATCH_SIZE - (flushBuffered false s).events.length)
        ∧ (flushBuffered false s).events.length + (flushBuffered false s).logEntries.length
            ≤ MAX_BATCH_SIZE
        ∧ s.bufferedEvents
            = (flushBuffered false s).events ++ (flushBuffered false s).state.bufferedEvents
        ∧ s.bufferedLogEntries
            = (flushBuffered false s).logEntries
                ++ (flushBuffered false s).state.bufferedLogEntries
        ∧ (flushBuffered true s).events = s.bufferedEvents
        ∧ (flushBuffered true s).logEntries = s.bufferedLogEntries
        ∧ (flushBuffered true s).state.bufferedEvents = []
        ∧ (flushBuffered true s).state.bufferedLogEntries = [] := by
    intro α β s
    refine ⟨rfl, rfl, rfl, rfl, ?_, ?_, ?_, ?_, ?_, ?_, ?_⟩
    · simp only [flushBuffered, MAX_BATCH_SIZE, List.length_take, Bool.false_eq_true,
        if_false]
      omega
    · simp [flushBuffered]
    · simp [flushBuffered]
    · simp [flushBuffered]
    · simp [flushBuffered]
    · simp [flushBuffered]
    · simp [flushBuffered]
  have e1 : ∀ (s : BufferState Nat Nat),
      (flushBuffered false s).events = s.bufferedEvents.take MAX_BATCH_SIZE :=
    fun _ => rfl
  have e2 : ∀ (s : BufferState Nat Nat),
      (flushBuffered false s).state.bufferedEvents = s.bufferedEvents.drop MAX_BATCH_SIZE :=
    fun _ => rfl
  have hevMixed : (flushBuffered false scenarioMixed).events.length = 50 := by
    rw [e1 scenarioMixed]
    have hb : scenarioMixed.bufferedEvents = List.replicate 50 0 := rfl
    rw [hb, MAX_BATCH_SIZE]
    simp only [List.length_take, List.length_replicate]
    omega
  refine ⟨hmain, ?_, ?_, ?_, hevMixed, ?_, ?_⟩
  · rw [e1 scenario250, scenario250_events, MAX_BATCH_SIZE]
    simp only [List.length_take, List.length_replicate]
    omega
  · rw [e1 _, e2 scenario250, scenario250_events, MAX_BATCH_SIZE]
    simp only [List.length_take, List.length_drop, List.length_replicate]
    omega
  · rw [e2 _, e2 scenario250, scenario250_events, MAX_BATCH_SIZE, List.drop_drop]
    apply List.drop_eq_nil_of_le
    simp only [List.length_replicate]
    omega
  · have m2 : (flushBuffered false scenarioMixed).logEntries
        = scenarioMixed.bufferedLogEntries.take
            (MAX_BATCH_SIZE - (flushBuffered false scenarioMixed).events.length) := rfl
    have hl : scenarioMixed.bufferedLogEntries = List.replicate 300 1 := rfl
    rw [m2, hevMixed, hl, MAX_BATCH_SIZE]
    simp only [List.length_take, List.length_replicate]
    omega
  · have m3 : (flushBuffered false scenarioMixed).state.bufferedLogEntries
        = scenarioMixed.bufferedLogEntries.drop
            (MAX_BATCH_SIZE - (flushBuffered false scenarioMixed).events.length) := rfl
    have hl : scenarioMixed.bufferedLogEntries = List.replicate 300 1 := rfl
    rw [m3, hevMixed, hl, MAX_BATCH_SIZE]
    simp only [List.length_drop, List.length_replicate]

/-- Sink call carrying the removed events batch. -/
def eventsCall (sid : String) (ev : List α) : SinkCall α β :=
  { sessionId := sid, events := ev, logEntries := [] }

/-- Sink call carrying the removed log-records batch. -/
def logsCall (sid : String) (le : List β) : SinkCall α β :=
  { sessionId := sid, events := [], logEntries := le }

/-- The sink calls issued for a pair of removed batches: one call per
non-empty kind. -/
def callsOf (sid : String) (ev : List α) (le : List β) : List (SinkCall α β) :=
  (if ev.isEmpty then [] else [eventsCall sid ev])
    ++ (if le.isEmpty then [] else [logsCall sid le])

theorem calls_shape (sid : String) (ev : List α) (le : List β) :
    ((callsOf sid ev le).countP (fun c => !c.events.isEmpty)
        = (if ev.isEmpty then 0 else 1))
    ∧ ((callsOf sid ev le).countP (fun c => !c.logEntries.isEmpty)
        = (if le.isEmpty then 0 else 1))
    ∧ ((callsOf sid ev le).length
        = (if ev.isEmpty then 0 else 1) + (if le.isEmpty then 0 else 1))
    ∧ ((callsOf sid ev le).all
          (fun c => c.sessionId == sid && (c.events.isEmpty || c.logEntries.isEmpty))
        = true) := by
  by_cases he : ev.isEmpty <;> by_cases hl : le.isEmpty <;>
    simp [callsOf, eventsCall, logsCall, he, hl, List.countP_cons, List.countP_nil]

/-- C6: every flush issues exactly one sink call per non-empty removed
batch kind (zero calls for an empty kind), each call carrying the session
id and only its own kind, the other kind being empty in the same call
shape. -/
theorem C6_sink_calls (α β : Type) (flushAll : Bool) (s : BufferState α β) :
    ((flushBuffered flushAll s).calls.countP (fun c => !c.events.isEmpty)
        = (if (flushBuffered flushAll s).events.isEmpty then 0 else 1))
    ∧ ((flushBuffered flushAll s).calls.countP (fun c => !c.logEntries.isEmpty)
        = (if (flushBuffered flushAll s).logEntries.isEmpty then 0 else 1))
    ∧ ((flushBuffered flushAll s).calls.length
        = (if (flushBuffered flushAll s).events.isEmpty then 0 else 1)
            + (if (flushBuffered flushAll s).logEntries.isEmpty then 0 else 1))
    ∧ ((flushBuffered flushAll s).calls.all
          (fun c => c.sessionId == s.sessionId && (c.events.isEmpty || c.logEntries.isEmpty))
        = true) := by
  have hc :
      (flushBuffered flushAll s).calls
        = callsOf s.sessionId (flushBuffered flushAll s).events
            (flushBuffered flushAll s).logEntries := rfl
  rw [hc]
  exact calls_shape s.sessionId (flushBuffered flushAll s).events
    (flushBuffered flushAll s).logEntries

end Garden

namespace Garden

theorem render_calls (s : WriterState) (entries : List TerminalEntry) (didWrite : Bool) :
    (render s entries didWrite).calls
      = if didWrite then []
        else writeCalls s.prevOutput (splitLines (joinAll (entries.map (fun e => e.text)))) :=
  rfl

theorem render_state_prevOutput (s : WriterState) (entries : List TerminalEntry)
    (didWrite : Bool) :
    (render s entries didWrite).state.prevOutput
      = splitLines (joinAll (entries.map (fun e => e.text))) := by
  simp only [render]
  split <;> simp [stopLoop, startLoop]

theorem render_state_lastInterceptAt (s : WriterState) (entries : List TerminalEntry)
    (didWrite : Bool) :
    (render s entries didWrite).state.lastInterceptAt = s.lastInterceptAt := by
  simp only [render]
  split <;> simp [stopLoop, startLoop]

theorem render_state_level (s : WriterState) (entries : List TerminalEntry)
    (didWrite : Bool) :
    (render s entries didWrite).state.level = s.level := by
  simp only [render]
  split <;> simp [stopLoop, startLoop]

theorem render_state_spinners (s : WriterState) (entries : List TerminalEntry)
    (didWrite : Bool) :
    (render s entries didWrite).state.spinners = s.spinners := by
  simp only [render]
  split <;> simp [stopLoop, startLoop]

theorem handleRender_lastInterceptAt (R : Renderers) (width : Nat) (log : LogEntryView)
    (logger : List LogEntryView) (didWrite : Bool) (s : WriterState) :
    (handleRender R width log logger didWrite s).state.lastInterceptAt = s.lastInterceptAt := by
  simp only [handleRender]
  by_cases h :
      ((fullRender R width s.level s.spinners logger).1.any (fun e => e.key == log.key)) = true <;>
    simp [h, render_state_lastInterceptAt]

theorem handleRender_congr (R : Renderers) (width : Nat) (log : LogEntryView)
    (logger : List LogEntryView) (didWrite : Bool) (s t : WriterState)
    (hl : s.level = t.level) (hs : s.spinners = t.spinners) (hp : s.prevOutput = t.prevOutput) :
    (handleRender R width log logger didWrite s).calls
        = (handleRender R width log logger didWrite t).calls
    ∧ (handleRender R width log logger didWrite s).decision
        = (handleRender R width log logger didWrite t).decision := by
  simp only [handleRender]
  rw [hl, hs]
  by_cases h :
      ((fullRender R width t.level t.spinners logger).1.any (fun e => e.key == log.key)) = true <;>
    simp [h, render_calls, hp]

/-- C7 (amended): lastInterceptAt is set to the current time on every
live-stream-originated notification that is not a deferred catch-up call,
whether the notification is throttled or rendered; all other notifications
leave it unchanged. -/
theorem C7_lastInterceptAt (R : Renderers) (width now : Nat) (log : LogEntryView)
    (logger : List LogEntryView) (didWrite : Bool) (s : WriterState) :
    (handleGraphChange R width now log logger didWrite s).state.lastInterceptAt
      = if log.fromStdStream && !didWrite then some now else s.lastInterceptAt := by
  by_cases hb : (log.fromStdStream && !didWrite) = true
  · simp only [handleGraphChange, hb, if_true]
    by_cases ht :
        throttleCheck ({ s with updatePending := false }).lastInterceptAt now = true <;>
      simp [ht, stopLoop, handleRender_lastInterceptAt]
  · simp only [handleGraphChange, hb]
    simp only [Bool.not_eq_true] at hb
    simp [hb, handleRender_lastInterceptAt]

/-- State of a writer in the middle of a live-stream burst: the previous
notification was intercepted 100 ms ago. -/
def throttledState : WriterState := { initWriterState with lastInterceptAt := some 100 }

/-- C7 counterexample: a live-stream notification arriving 100 ms after
the previous intercept is throttled (decision deferred), yet
lastInterceptAt is updated to the current time instead of being left
unchanged as the claim states. -/
theorem C7_counterexample :
    (handleGraphChange cexRenderers 80 200 streamEntryS [streamEntryS] false
          throttledState).decision
        = Decision.deferredCatchUp
    ∧ (handleGraphChange cexRenderers 80 200 streamEntryS [streamEntryS] false
          throttledState).state.lastInterceptAt
        ≠ throttledState.lastInterceptAt := by
  decide

/-- State of a writer whose deferred catch-up timer has just fired: the
burst marked an update pending, and the canvas cache still holds the
output from before the burst. -/
def catchupState : WriterState :=
  { initWriterState with lastInterceptAt := some 1100, updatePending := true }

/-- C1 (code evaluation at the failing input): the deferred catch-up call
(didWrite true) for a visible live-stream entry reaches the render path
(decision renderedNow) and replaces the cached previous output with the
new flattened output, yet issues zero setLine calls and no repaint: the
write guarded by didWrite in render is skipped, so the catch-up render
never writes the canvas. -/
theorem C1_catchup_skips_write :
    (handleGraphChange cexRenderers 80 1700 streamEntryS [streamEntryS] true
          catchupState).decision
        = Decision.renderedNow
    ∧ (handleGraphChange cexRenderers 80 1700 streamEntryS [streamEntryS] true
          catchupState).calls = []
    ∧ (handleGraphChange cexRenderers 80 1700 streamEntryS [streamEntryS] true
          catchupState).repaint = false
    ∧ (handleGraphChange cexRenderers 80 1700 streamEntryS [streamEntryS] true
          catchupState).state.prevOutput
        ≠ catchupState.prevOutput := by
  decide

end Garden

namespace Garden

theorem handleGraphChange_congr (R : Renderers) (width now : Nat) (log : LogEntryView)
    (logger : List LogEntryView) (didWrite : Bool) (s t : WriterState)
    (hl : s.level = t.level) (hs : s.spinners = t.spinners)
    (hp : s.prevOutput = t.prevOutput) (hi : s.lastInterceptAt = t.lastInterceptAt) :
    (handleGraphChange R width now log logger didWrite s).calls
        = (handleGraphChange R width now log logger didWrite t).calls
    ∧ (handleGraphChange R width now log logger didWrite s).decision
        = (handleGraphChange R width now log logger didWrite t).decision := by
  have h1 := handleRender_congr R width log logger didWrite
      { s with updatePending := false } { t with updatePending := false }
      (by simpa using hl) (by simpa using hs) (by simpa using hp)
  have h2 := handleRender_congr R width log logger didWrite
      { { s with updatePending := false } with lastInterceptAt := some now }
      { { t with updatePending := false } with lastInterceptAt := some now }
      (by simpa using hl) (by simpa using hs) (by simpa using hp)
  simp only [handleGraphChange]
  by_cases hb : (log.fromStdStream && !didWrite) = true
  · simp only [hb, if_true]
    have hthr :
        throttleCheck ({ s with updatePending := false }).lastInterceptAt now
          = throttleCheck ({ t with updatePending := false }).lastInterceptAt now := by
      simp [hi]
    rw [hthr]
    by_cases ht :
        throttleCheck ({ t with updatePending := false }).lastInterceptAt now = true
    · simp [ht]
    · simp only [Bool.not_eq_true] at ht
      simp only [ht, Bool.false_eq_true, if_false]
      exact h2
  · simp only [hb, Bool.false_eq_true, if_false]
    exact h1

/-- C9 (amended): the public stop method synchronously stops the spinner
tick loop and nothing else: the buffered error messages, the screen, the
cached output and the rest of the state are untouched (flushing the error
buffer and destroying the screen happen only in cleanup), and a
notification processed after stop yields the same setLine calls and the
same decision as one processed without the stop. -/
theorem C9_stop_only_stops_loop (s : WriterState) (R : Renderers) (width now : Nat)
    (log : LogEntryView) (logger : List LogEntryView) (didWrite : Bool) :
    (stop s).loopEntries = none
    ∧ (stop s).errorMessages = s.errorMessages
    ∧ (stop s).screenDestroyed = s.screenDestroyed
    ∧ (stop s).prevOutput = s.prevOutput
    ∧ (stop s).spinners = s.spinners
    ∧ (cleanup s).1.screenDestroyed = true
    ∧ (cleanup s).2 = s.errorMessages
    ∧ (cleanup s).1.errorMessages = []
    ∧ (handleGraphChange R width now log logger didWrite (stop s)).calls
        = (handleGraphChange R width now log logger didWrite s).calls
    ∧ (handleGraphChange R width now log logger didWrite (stop s)).decision
        = (handleGraphChange R width now log logger didWrite s).decision := by
  have hcongr := handleGraphChange_congr R width now log logger didWrite (stop s) s
      rfl rfl rfl rfl
  exact ⟨rfl, rfl, rfl, rfl, rfl, rfl, rfl, rfl, hcongr.1, hcongr.2⟩

/-- Writer state with a running spinner loop, a buffered error message and
a live screen, as left behind by earlier notifications. -/
def c9State : WriterState :=
  { initWriterState with errorMessages := ["fatal"], loopEntries := some [] }

/-- C9 counterexample: stopping this writer leaves the error-message
buffer unflushed and the screen alive, and a notification arriving after
stop is still fully processed, issuing a setLine call and rendering —
contradicting the claim that stop flushes the buffers, releases the canvas
and prevents later notifications from being processed. -/
theorem C9_counterexample :
    (stop c9State).errorMessages = ["fatal"]
    ∧ (stop c9State).errorMessages ≠ []
    ∧ (stop c9State).screenDestroyed = false
    ∧ (handleGraphChange cexRenderers 80 5000 doneEntryA [doneEntryA] false
          (stop c9State)).calls ≠ []
    ∧ (handleGraphChange cexRenderers 80 5000 doneEntryA [doneEntryA] false
          (stop c9State)).decision
        = Decision.renderedNow := by
  decide

end Garden

namespace Garden

theorem entryText_not_active (R : Renderers) (width : Nat)
    (sp sp2 : List (String × Nat)) (entry : LogEntryView)
    (h : entry.status ≠ Status.active) :
    entryText R width sp entry = entryText R width sp2 entry := by
  simp [entryText, h]

theorem entryRecord_not_active (R : Renderers) (width : Nat)
    (sp sp2 : List (String × Nat)) (n : Nat) (entry : LogEntryView)
    (h : entry.status ≠ Status.active) :
    entryRecord R width sp n entry = entryRecord R width sp2 n entry := by
  simp only [entryRecord, entryText_not_active R width sp sp2 entry h]

theorem fullRenderAux_records_not_active (R : Renderers) (width : Nat) :
    ∀ (entries : List LogEntryView) (sp sp2 : List (String × Nat)) (n : Nat),
      (∀ e ∈ entries, e.status ≠ Status.active) →
      (fullRenderAux R width entries sp n).1 = (fullRenderAux R width entries sp2 n).1 := by
  intro entries
  induction entries with
  | nil => intro sp sp2 n _; rfl
  | cons e rest ih =>
    intro sp sp2 n h
    have he := h e (List.mem_cons_self e rest)
    have hr : ∀ x ∈ rest, x.status ≠ Status.active :=
      fun x hx => h x (List.mem_cons_of_mem e hx)
    simp only [fullRenderAux]
    rw [entryText_not_active R width sp sp2 e he,
        entryRecord_not_active R width sp sp2 n e he,
        ih (entrySpinners R sp e) (entrySpinners R sp2 e) _ hr]

theorem writeCallsFrom_suffix_nil (l : List String) :
    ∀ (rest pre : List String), l = pre ++ rest → writeCallsFrom l pre.length rest = [] := by
  intro rest
  induction rest with
  | nil => intro pre _; rfl
  | cons line rest2 ih =>
    intro pre h
    have hget : l[pre.length]? = some line := by
      rw [h, List.getElem?_append_right (Nat.le_refl pre.length)]
      simp
    have hlen : ¬ l.length < pre.length := by
      rw [h, List.length_append]
      simp only [List.length_cons]
      omega
    have hcond : codeRowWritten l pre.length line = false := by
      simp [codeRowWritten, hget, hlen]
    simp only [writeCallsFrom, hcond, Bool.false_eq_true, if_false]
    have h2 := ih (pre ++ [line]) (by rw [h]; simp)
    simpa [List.length_append] using h2

theorem writeCalls_self (l : List String) : writeCalls l l = [] :=
  writeCallsFrom_suffix_nil l l [] rfl

theorem render_repaint_false (s : WriterState) (entries : List TerminalEntry) :
    (render s entries false).repaint = !((render s entries false).calls).isEmpty := rfl

/-- One full snapshot-build and render pass, as run for a notification
that passes all gates: fullRender followed by render with didWrite
false. -/
def renderCycle (R : Renderers) (width : Nat) (logger : List LogEntryView)
    (s : WriterState) : RenderResult :=
  let fr := fullRender R width s.level s.spinners logger
  render { s with spinners := fr.2 } fr.1 false

/-- C5 (amended): rendering the same graph snapshot twice in succession
with no intervening mutation and an unchanged severity threshold produces
zero setLine calls and no repaint on the second rendering, provided no
visible entry is active — an active entry has an advancing spinner glyph
spliced into its text, which changes the flattened output on every
build. -/
theorem C5_idempotent (R : Renderers) (width : Nat) (logger : List LogEntryView)
    (s : WriterState)
    (h : ∀ e ∈ logger, e.level ≤ s.level → e.status ≠ Status.active) :
    (renderCycle R width logger (renderCycle R width logger s).state).calls = []
    ∧ (renderCycle R width logger (renderCycle R width logger s).state).repaint = false := by
  have hlevel : (renderCycle R width logger s).state.level = s.level := by
    simp only [renderCycle, render_state_level]
  have hprev : (renderCycle R width logger s).state.prevOutput
      = splitLines (joinAll (((fullRender R width s.level s.spinners logger).1).map
          (fun e => e.text))) := by
    simp only [renderCycle, render_state_prevOutput]
  have hfilter : ∀ e ∈ logger.filter (fun e => decide (e.level ≤ s.level)),
      e.status ≠ Status.active := by
    intro e he
    rcases List.mem_filter.mp he with ⟨hm, hd⟩
    exact h e hm (of_decide_eq_true hd)
  have hrecs1 : ∀ (t : WriterState), t.level = s.level →
      (fullRender R width t.level t.spinners logger).1
        = (fullRender R width s.level s.spinners logger).1 := by
    intro t ht
    rw [ht]
    unfold fullRender
    exact fullRenderAux_records_not_active R width _ _ _ 0 hfilter
  have key : ∀ (t : WriterState), t.level = s.level →
      t.prevOutput
          = splitLines (joinAll (((fullRender R width s.level s.spinners logger).1).map
              (fun e => e.text))) →
      (renderCycle R width logger t).calls = []
        ∧ (renderCycle R width logger t).repaint = false := by
    intro t ht hp
    have hstep : (renderCycle R width logger t).calls
        = writeCalls t.prevOutput
            (splitLines (joinAll (((fullRender R width t.level t.spinners logger).1).map
              (fun e => e.text)))) := rfl
    have hc : (renderCycle R width logger t).calls = [] := by
      rw [hstep, hrecs1 t ht, hp]
      exact writeCalls_self _
    refine ⟨hc, ?_⟩
    have hrep : (renderCycle R width logger t).repaint
        = !((renderCycle R width logger t).calls).isEmpty := rfl
    rw [hrep, hc]
    rfl
  exact key (renderCycle R width logger s).state hlevel hprev

/-- Witness for C5 at a concrete input: one visible done entry, rendered
twice from the initial writer state. -/
theorem C5_idempotent_witness :
    (∀ e ∈ [doneEntryA], e.level ≤ initWriterState.level → e.status ≠ Status.active)
    ∧ ((renderCycle cexRenderers 80 [doneEntryA]
          (renderCycle cexRenderers 80 [doneEntryA] initWriterState).state).calls = []
        ∧ (renderCycle cexRenderers 80 [doneEntryA]
            (renderCycle cexRenderers 80 [doneEntryA] initWriterState).state).repaint
          = false) :=
  ⟨by decide, C5_idempotent cexRenderers 80 [doneEntryA] initWriterState (by decide)⟩

/-- C5 counterexample: with a visible active entry, the second rendering
of the unchanged graph issues a setLine call, because the spinner glyph
spliced into the entry text advances between the two builds. -/
theorem C5_counterexample :
    (renderCycle cexRenderers 80 [activeEntryA]
        (renderCycle cexRenderers 80 [activeEntryA] initWriterState).state).calls ≠ [] := by
  decide

end Garden

namespace Garden

theorem lookupKey_setKey_ne :
    ∀ (sp : List (String × Nat)) (k1 k2 : String) (v : Nat), k1 ≠ k2 →
      lookupKey (setKey sp k1 v) k2 = lookupKey sp k2 := by
  intro sp
  induction sp with
  | nil =>
    intro k1 k2 v h
    simp [setKey, lookupKey, h]
  | cons p rest ih =>
    intro k1 k2 v h
    rcases p with ⟨k, w⟩
    by_cases hk : k = k1
    · subst hk
      simp [setKey, lookupKey, h]
    · simp only [setKey, lookupKey, if_neg hk]
      by_cases hk2 : k = k2
      · simp [lookupKey, hk2]
      · simp [lookupKey, hk2, ih k1 k2 v h]

theorem lookupKey_eraseKey_self :
    ∀ (sp : List (String × Nat)) (k : String), lookupKey (eraseKey sp k) k = none := by
  intro sp
  induction sp with
  | nil => intro k; rfl
  | cons p rest ih =>
    intro k
    rcases p with ⟨k0, v⟩
    by_cases hk : k0 = k
    · simp [eraseKey, hk, ih]
    · simp [eraseKey, lookupKey, hk, ih]

theorem lookupKey_eraseKey_ne :
    ∀ (sp : List (String × Nat)) (k1 k2 : String), k1 ≠ k2 →
      lookupKey (eraseKey sp k1) k2 = lookupKey sp k2 := by
  intro sp
  induction sp with
  | nil => intro k1 k2 _; rfl
  | cons p rest ih =>
    intro k1 k2 h
    rcases p with ⟨k0, v⟩
    by_cases hk : k0 = k1
    · subst hk
      simp [eraseKey, lookupKey, h, ih k0 k2 h]
    · simp only [eraseKey, if_neg hk]
      by_cases hk2 : k0 = k2
      · simp [lookupKey, hk2]
      · simp [lookupKey, hk2, ih k1 k2 h]

theorem lookupKey_tickSpinner_ne (R : Renderers) (sp : List (String × Nat))
    (k1 k2 : String) (h : k1 ≠ k2) :
    lookupKey (tickSpinner R sp k1).2 k2 = lookupKey sp k2 := by
  unfold tickSpinner
  cases lookupKey sp k1 <;> simp [lookupKey_setKey_ne sp k1 k2 _ h]

theorem lookupKey_entrySpinners_none (R : Renderers) (sp : List (String × Nat))
    (e : LogEntryView) (k : String)
    (hk : e.key = k → e.status ≠ Status.active)
    (hnone : lookupKey sp k = none) :
    lookupKey (entrySpinners R sp e) k = none := by
  unfold entrySpinners
  by_cases hs : e.status = Status.active
  · have hne : e.key ≠ k := fun hh => (hk hh) hs
    simp only [hs, if_true]
    rw [lookupKey_tickSpinner_ne R sp e.key k hne]
    exact hnone
  · simp only [hs, if_false]
    by_cases hek : e.key = k
    · rw [hek]
      exact lookupKey_eraseKey_self sp k
    · rw [lookupKey_eraseKey_ne sp e.key k hek]
      exact hnone

theorem fullRenderAux_spinners_none (R : Renderers) (width : Nat) :
    ∀ (entries : List LogEntryView) (sp : List (String × Nat)) (n : Nat) (k : String),
      (∀ e ∈ entries, e.key = k → e.status ≠ Status.active) →
      lookupKey sp k = none →
      lookupKey (fullRenderAux R width entries sp n).2 k = none := by
  intro entries
  induction entries with
  | nil => intro sp n k _ hnone; exact hnone
  | cons e rest ih =>
    intro sp n k hall hnone
    simp only [fullRenderAux]
    exact ih _ _ k (fun x hx => hall x (List.mem_cons_of_mem e hx))
      (lookupKey_entrySpinners_none R sp e k (hall e (List.mem_cons_self e rest)) hnone)

theorem fullRenderAux_spinners_erased (R : Renderers) (width : Nat) :
    ∀ (entries : List LogEntryView) (sp : List (String × Nat)) (n : Nat) (k : String),
      (∃ e ∈ entries, e.key = k) →
      (∀ e ∈ entries, e.key = k → e.status ≠ Status.active) →
      lookupKey (fullRenderAux R width entries sp n).2 k = none := by
  intro entries
  induction entries with
  | nil =>
    intro sp n k hex _
    rcases hex with ⟨e, he, _⟩
    exact absurd he (List.not_mem_nil e)
  | cons e rest ih =>
    intro sp n k hex hall
    simp only [fullRenderAux]
    by_cases hek : e.key = k
    · have hsn : e.status ≠ Status.active := hall e (List.mem_cons_self e rest) hek
      have hsp : lookupKey (entrySpinners R sp e) k = none := by
        unfold entrySpinners
        simp only [hsn, if_neg]
        rw [hek]
        exact lookupKey_eraseKey_self sp k
      exact fullRenderAux_spinners_none R width rest _ _ k
        (fun x hx => hall x (List.mem_cons_of_mem e hx)) hsp
    · rcases hex with ⟨e2, he2, hk2⟩
      have he2r : e2 ∈ rest := by
        rcases List.mem_cons.mp he2 with h1 | h1
        · rw [h1] at hk2
          exact absurd hk2 hek
        · exact h1
      exact ih _ _ k ⟨e2, he2r, hk2⟩ (fun x hx => hall x (List.mem_cons_of_mem e hx))

theorem fullRenderAux_coords_none (R : Renderers) (width : Nat) :
    ∀ (entries : List LogEntryView) (sp : List (String × Nat)) (n : Nat) (k : String),
      (∀ e ∈ entries, e.key = k → e.status ≠ Status.active) →
      ((fullRenderAux R width entries sp n).1.all
        (fun r => !(r.key == k) || r.spinnerCoords.isNone)) = true := by
  intro entries
  induction entries with
  | nil => intro sp n k _; rfl
  | cons e rest ih =>
    intro sp n k hall
    simp only [fullRenderAux, List.all_append]
    have htail := ih (entrySpinners R sp e) (n + (segCount (entryText R width sp e) - 1)) k
      (fun x hx => hall x (List.mem_cons_of_mem e hx))
    rw [htail, Bool.and_true]
    by_cases ht : entryText R width sp e = ""
    · simp [entryRecord, ht]
    · by_cases hek : e.key = k
      · have hsn : e.status ≠ Status.active := hall e (List.mem_cons_self e rest) hek
        simp [entryRecord, ht, hek, hsn]
      · simp [entryRecord, ht, hek]

theorem filter_isEmpty_eq_not_any (p : α → Bool) (l : List α) :
    (l.filter p).isEmpty = !l.any p := by
  induction l with
  | nil => rfl
  | cons x xs ih =>
    by_cases hp : p x <;> simp [List.filter_cons, hp, ih]

theorem render_loop_isSome (s : WriterState) (entries : List TerminalEntry) (d : Bool) :
    (render s entries d).state.loopEntries.isSome
      = entries.any (fun r => r.spinnerCoords.isSome) := by
  simp only [render]
  by_cases h : (entries.filter (fun e => e.spinnerCoords.isSome)).isEmpty = true
  · have ha := filter_isEmpty_eq_not_any (fun e => e.spinnerCoords.isSome) entries
    rw [h] at ha
    have hany : entries.any (fun r => r.spinnerCoords.isSome) = false := by
      cases hb : entries.any (fun r => r.spinnerCoords.isSome)
      · rfl
      · rw [hb] at ha
        simp at ha
    simp only [h, if_true, stopLoop]
    simp [hany]
  · have ha := filter_isEmpty_eq_not_any (fun e => e.spinnerCoords.isSome) entries
    simp only [Bool.not_eq_true] at h
    rw [h] at ha
    have hany : entries.any (fun r => r.spinnerCoords.isSome) = true := by
      cases hb : entries.any (fun r => r.spinnerCoords.isSome)
      · rw [hb] at ha
        simp at ha
      · rfl
    simp only [h, Bool.false_eq_true, if_false, startLoop, stopLoop]
    simp [hany]

end Garden

namespace Garden

/-- C8 (amended): for every entry that is visible under the current
severity threshold (entry level at most the writer level) and whose key
belongs to no active entry in the snapshot — in particular an entry that
transitioned from active to done — the snapshot build removes the key from
the spinners map and attaches no spinner coordinates to any record with
that key, and after the render the spinner tick loop is running exactly
when at least one record of the applied snapshot carries spinner
coordinates.  Entries filtered out by severity are not processed, so their
keys are not removed (see the counterexample). -/
theorem C8_spinner_lifecycle (R : Renderers) (width level : Nat)
    (spinners : List (String × Nat)) (logger : List LogEntryView) (k : String)
    (s : WriterState) (didWrite : Bool)
    (hmem : ∃ e ∈ logger, e.key = k ∧ e.level ≤ level)
    (hact : ∀ e ∈ logger, e.key = k → e.status ≠ Status.active) :
    lookupKey (fullRender R width level spinners logger).2 k = none
    ∧ ((fullRender R width level spinners logger).1.all
        (fun r => !(r.key == k) || r.spinnerCoords.isNone)) = true
    ∧ (render s (fullRender R width level spinners logger).1 didWrite).state.loopEntries.isSome
        = (fullRender R width level spinners logger).1.any
            (fun r => r.spinnerCoords.isSome) := by
  have hfl : ∀ e ∈ logger.filter (fun e => decide (e.level ≤ level)),
      e.key = k → e.status ≠ Status.active := by
    intro e he
    rcases List.mem_filter.mp he with ⟨hm, _⟩
    exact hact e hm
  have hex : ∃ e ∈ logger.filter (fun e => decide (e.level ≤ level)), e.key = k := by
    rcases hmem with ⟨e, he, hk, hl⟩
    exact ⟨e, List.mem_filter.mpr ⟨he, decide_eq_true hl⟩, hk⟩
  exact ⟨fullRenderAux_spinners_erased R width _ spinners 0 k hex hfl,
    fullRenderAux_coords_none R width _ spinners 0 k hfl,
    render_loop_isSome s _ didWrite⟩

/-- Witness for C8 at a concrete input: a visible entry with key a that
has left the active status while its spinner phase is still stored. -/
theorem C8_spinner_lifecycle_witness :
    ((∃ e ∈ [doneEntryA], e.key = "a" ∧ e.level ≤ 2)
      ∧ (∀ e ∈ [doneEntryA], e.key = "a" → e.status ≠ Status.active))
    ∧ (lookupKey (fullRender cexRenderers 80 2 [("a", 5)] [doneEntryA]).2 "a" = none
        ∧ ((fullRender cexRenderers 80 2 [("a", 5)] [doneEntryA]).1.all
            (fun r => !(r.key == "a") || r.spinnerCoords.isNone)) = true
        ∧ (render initWriterState (fullRender cexRenderers 80 2 [("a", 5)] [doneEntryA]).1
              false).state.loopEntries.isSome
          = (fullRender cexRenderers 80 2 [("a", 5)] [doneEntryA]).1.any
              (fun r => r.spinnerCoords.isSome)) :=
  ⟨⟨by decide, by decide⟩,
    C8_spinner_lifecycle cexRenderers 80 2 [("a", 5)] [doneEntryA] "a" initWriterState false
      (by decide) (by decide)⟩

/-- C8 counterexample: an entry with key a that has transitioned to done
but sits above the severity threshold (debug entry, info writer) is
filtered out before the reduce, so the snapshot build leaves its key in
the spinners map with its old phase — the key is not absent as the claim
states. -/
theorem C8_counterexample :
    hiddenDoneEntryA.status = Status.done
    ∧ lookupKey (fullRender cexRenderers 80 2 [("a", 3)] [hiddenDoneEntryA]).2 "a"
        = some 3
    ∧ lookupKey (fullRender cexRenderers 80 2 [("a", 3)] [hiddenDoneEntryA]).2 "a"
        ≠ none := by
  decide

end Garden
